import Mathlib

/-!
Shallow embedding of the "Tombola" family from the notebook
`11-iface-abc/11-iface-abc.ipynb`: the abstract contract `Tombola`
(with its default `loaded` and `inspect` methods) and the concrete
implementations `BingoCage`, `LotteryBlower` and `TomboList`.

Modelling conventions:
* Items are values of a type `α` with a `LinearOrder` (Python's `sorted`
  needs comparability; the spec calls items "opaque, comparable values").
* Python exceptions are modelled by `PyErr`; `LookupError` is the
  spec's `EmptyError`.
* The randomness source (`random.SystemRandom` / the `random` module) is
  modelled by a stream of natural numbers `rs : List Nat` consumed head
  first; a drawn value `r` is reduced to a range `[0, n)` by `r % n`.
  `random.shuffle` is the Fisher–Yates loop CPython implements:
  `for i in reversed(range(1, len(x))): j = randbelow(i+1); swap x[i] x[j]`.
* Mutation is explicit state passing: a method returns its result
  together with the new state (and the rest of the randomness stream).
-/

open scoped List

/-- The Python exception kinds that occur in this code.  `lookupError` is
the `EmptyError` of the spec. -/
inductive PyErr
  | lookupError
  | indexError
  | valueError
  deriving DecidableEq, Repr

/-- `random.randrange(n)`: raises `ValueError` when the range is empty,
otherwise returns a value in `[0, n)` drawn from the stream. -/
def randrange (rs : List Nat) (n : Nat) : Except PyErr Nat × List Nat :=
  if n = 0 then (.error .valueError, rs)
  else (.ok (rs.headD 0 % n), rs.tail)

/-- Python `list.pop()` (no argument): removes and returns the last
element; raises `IndexError` on an empty list. -/
def pyPopLast (l : List α) : Except PyErr (α × List α) :=
  match l.getLast? with
  | some a => .ok (a, l.dropLast)
  | none => .error .indexError

/-- Python `list.pop(i)` for `0 ≤ i`: removes and returns the element at
index `i`; raises `IndexError` when the index is out of range. -/
def pyPop (l : List α) (i : Nat) : Except PyErr (α × List α) :=
  match l[i]? with
  | some a => .ok (a, l.eraseIdx i)
  | none => .error .indexError

/-- Python `sorted(xs)`: a stable ascending sort. -/
def pySorted [LinearOrder α] (l : List α) : List α :=
  l.insertionSort (· ≤ ·)

/-- The simultaneous assignment `x[i], x[j] = x[j], x[i]` of
`random.shuffle`'s loop body. -/
def listSwap (l : List α) (i j : Nat) : List α :=
  match l[i]?, l[j]? with
  | some a, some b => (l.set i b).set j a
  | _, _ => l

/-- The loop of CPython's `random.shuffle`: `i` runs from `len - 1`
down to `1`, and at each step `j = randbelow(i + 1)` is drawn and
`x[i]` and `x[j]` are swapped.  The `Nat` argument is the current `i`. -/
def shuffleFrom (l : List α) (rs : List Nat) : Nat → List α × List Nat
  | 0 => (l, rs)
  | Nat.succ k =>
      let j := rs.headD 0 % (k + 2)
      shuffleFrom (listSwap l (k + 1) j) rs.tail k

/-- `random.shuffle(x)` / `self._randomizer.shuffle(x)`: Fisher–Yates
over the whole list, driven by the randomness stream. -/
def pyShuffle (l : List α) (rs : List Nat) : List α × List Nat :=
  shuffleFrom l rs (l.length - 1)

/-- `BingoCage`: owns `self._items`, a Python list. -/
structure BingoCage (α : Type) where
  _items : List α

/-- `BingoCage.load`: `self._items.extend(items)` then
`self._randomizer.shuffle(self._items)`. -/
def BingoCage.load (st : BingoCage α) (items : List α) (rs : List Nat) :
    BingoCage α × List Nat :=
  let (sh, rs') := pyShuffle (st._items ++ items) rs
  (⟨sh⟩, rs')

/-- `BingoCage.__init__`: starts with `self._items = []` and calls
`self.load(items)`. -/
def BingoCage.init (items : List α) (rs : List Nat) : BingoCage α × List Nat :=
  BingoCage.load ⟨[]⟩ items rs

/-- `BingoCage.pick`: `return self._items.pop()`, catching `IndexError`
and raising `LookupError('pick from empty BingoCage')` instead. -/
def BingoCage.pick (st : BingoCage α) : Except PyErr α × BingoCage α :=
  match pyPopLast st._items with
  | .ok (a, rest) => (.ok a, ⟨rest⟩)
  | .error .indexError => (.error .lookupError, st)
  | .error e => (.error e, st)

/-- `BingoCage.__call__`: `self.pick()` — the picked item is discarded
and the method returns `None` (modelled by `Unit`). -/
def BingoCage.call (st : BingoCage α) : Except PyErr Unit × BingoCage α :=
  match st.pick with
  | (.ok _, st') => (.ok (), st')
  | (.error e, st') => (.error e, st')

/-- The `while True` loop of `Tombola.inspect`, as executed by
`BingoCage` (the only class that inherits the default): repeatedly
`self.pick()`, appending results to `items`, until `LookupError` breaks
the loop; any other exception would propagate. -/
def bingoDrainLoop (st : BingoCage α) (items : List α) :
    Except PyErr (List α × BingoCage α) :=
  match h : st.pick with
  | (.ok a, st') => bingoDrainLoop st' (items ++ [a])
  | (.error .lookupError, st') => .ok (items, st')
  | (.error e, _) => .error e
termination_by st._items.length
decreasing_by
  simp only [BingoCage.pick] at h
  rcases hl : st._items.getLast? with _ | a
  · simp [pyPopLast, hl] at h
  · simp only [pyPopLast, hl] at h
    rw [Prod.mk.injEq] at h
    obtain ⟨-, h2⟩ := h
    subst h2
    have hne : st._items ≠ [] := by
      intro hnil; rw [hnil] at hl; simp at hl
    simp only [List.length_dropLast]
    have : 0 < st._items.length := List.length_pos.mpr hne
    omega

/-- `Tombola.inspect`, the default the ABC provides, as inherited by
`BingoCage`: drain via `pick` into `items`, `self.load(items)` to put
everything back, and return `tuple(sorted(items))`. -/
def Tombola.inspectBingo [LinearOrder α] (st : BingoCage α) (rs : List Nat) :
    Except PyErr (List α) × BingoCage α × List Nat :=
  match bingoDrainLoop st [] with
  | .ok (items, st') =>
      let (st'', rs') := st'.load items rs
      (.ok (pySorted items), st'', rs')
  | .error e => (.error e, st, rs)

/-- `Tombola.loaded`, the default the ABC provides, as inherited by
`BingoCage`: `return bool(self.inspect())` — the truth value of the
tuple `inspect` returns. -/
def Tombola.loadedBingo [LinearOrder α] (st : BingoCage α) (rs : List Nat) :
    Except PyErr Bool × BingoCage α × List Nat :=
  match Tombola.inspectBingo st rs with
  | (.ok items, st', rs') => (.ok (!items.isEmpty), st', rs')
  | (.error e, st', rs') => (.error e, st', rs')

/-- `LotteryBlower`: owns `self._balls`, a Python list. -/
structure LotteryBlower (α : Type) where
  _balls : List α

/-- `LotteryBlower.__init__`: `self._balls = list(iterable)`. -/
def LotteryBlower.init (iterable : List α) : LotteryBlower α :=
  ⟨iterable⟩

/-- `LotteryBlower.load`: `self._balls.extend(iterable)`. -/
def LotteryBlower.load (st : LotteryBlower α) (iterable : List α) :
    LotteryBlower α :=
  ⟨st._balls ++ iterable⟩

/-- `LotteryBlower.pick`: `position = random.randrange(len(self._balls))`,
catching `ValueError` and raising `LookupError` instead; then
`return self._balls.pop(position)`. -/
def LotteryBlower.pick (st : LotteryBlower α) (rs : List Nat) :
    (Except PyErr α × LotteryBlower α) × List Nat :=
  match randrange rs st._balls.length with
  | (.ok position, rs') =>
      match pyPop st._balls position with
      | .ok (a, rest) => ((.ok a, ⟨rest⟩), rs')
      | .error e => ((.error e, st), rs')
  | (.error .valueError, rs') => ((.error .lookupError, st), rs')
  | (.error e, rs') => ((.error e, st), rs')

/-- `LotteryBlower.loaded` (overrides the default):
`return bool(self._balls)`. -/
def LotteryBlower.loaded (st : LotteryBlower α) : Bool :=
  !st._balls.isEmpty

/-- `LotteryBlower.inspect` (overrides the default):
`return tuple(sorted(self._balls))`. -/
def LotteryBlower.inspect [LinearOrder α] (st : LotteryBlower α) : List α :=
  pySorted st._balls

/-- `TomboList(list)`: registered as a virtual subclass of `Tombola`, it
subclasses the built-in `list`, so the instance's stored state is just
the list itself (`self`). -/
structure TomboList (α : Type) where
  self : List α

/-- `TomboList` construction is `list.__init__`: `TomboList(iterable)`
makes a list of the iterable's items. -/
def TomboList.init (iterable : List α) : TomboList α :=
  ⟨iterable⟩

/-- `TomboList.pick`: `if self:` draw `position = randrange(len(self))`
and `return self.pop(position)`; `else: raise LookupError(...)`. -/
def TomboList.pick (t : TomboList α) (rs : List Nat) :
    (Except PyErr α × TomboList α) × List Nat :=
  if !t.self.isEmpty then
    match randrange rs t.self.length with
    | (.ok position, rs') =>
        match pyPop t.self position with
        | .ok (a, rest) => ((.ok a, ⟨rest⟩), rs')
        | .error e => ((.error e, t), rs')
    | (.error e, rs') => ((.error e, t), rs')
  else
    ((.error .lookupError, t), rs)

/-- `TomboList.loaded`: `return bool(self)`. -/
def TomboList.loaded (t : TomboList α) : Bool :=
  !t.self.isEmpty

/-- `TomboList.inspect`: `return tuple(sorted(self))`. -/
def TomboList.inspect [LinearOrder α] (t : TomboList α) : List α :=
  pySorted t.self

/-- The attribute names bound in the class body of `TomboList` as the
notebook writes it.  The line `load = list.extend` is indented inside
the body of `pick`, after an `if`/`else` in which both branches
`return` or `raise`, so it is dead code binding (at most) a local
variable of `pick`, not a class attribute: the class body defines
`pick`, `loaded` and `inspect` but no `load`, and as a merely
*registered* virtual subclass it inherits nothing from `Tombola`, so
`TomboList` has no `load` method at all. -/
def TomboList.classAttributes : List String :=
  ["pick", "loaded", "inspect"]

/-- Modelled from the spec (§4.4, `load`: delegates to the sequence's
native append-many operation): the `load = list.extend` the notebook
*intended* to place at class level in `TomboList`.  The class body as
written never binds it (see `TomboList.classAttributes`). -/
def TomboList.intendedLoad (t : TomboList α) (items : List α) : TomboList α :=
  ⟨t.self ++ items⟩

/-- The external harness's drain of a `LotteryBlower`: call `pick`
repeatedly, collecting results, until it fails; a `LookupError` ends
the drain, any other exception would propagate. -/
def lottoDrainLoop (st : LotteryBlower α) (rs : List Nat) (items : List α) :
    Except PyErr (List α × LotteryBlower α × List Nat) :=
  match h : st.pick rs with
  | ((.ok a, st'), rs') => lottoDrainLoop st' rs' (items ++ [a])
  | ((.error .lookupError, st'), rs') => .ok (items, st', rs')
  | ((.error e, _), _) => .error e
termination_by st._balls.length
decreasing_by
  simp only [LotteryBlower.pick, randrange] at h
  by_cases hn : st._balls.length = 0
  · simp [hn] at h
  · have hpos : rs.headD 0 % st._balls.length < st._balls.length :=
      Nat.mod_lt _ (Nat.pos_of_ne_zero hn)
    simp only [if_neg hn, pyPop, List.getElem?_eq_getElem hpos] at h
    rw [Prod.mk.injEq, Prod.mk.injEq] at h
    obtain ⟨⟨-, h2⟩, -⟩ := h
    subst h2
    simp only [List.length_eraseIdx, if_pos hpos]
    omega

/-- The external harness's drain of a `TomboList`: call `pick`
repeatedly, collecting results, until it fails; a `LookupError` ends
the drain, any other exception would propagate. -/
def tomboDrainLoop (t : TomboList α) (rs : List Nat) (items : List α) :
    Except PyErr (List α × TomboList α × List Nat) :=
  match h : t.pick rs with
  | ((.ok a, t'), rs') => tomboDrainLoop t' rs' (items ++ [a])
  | ((.error .lookupError, t'), rs') => .ok (items, t', rs')
  | ((.error e, _), _) => .error e
termination_by t.self.length
decreasing_by
  simp only [TomboList.pick, randrange] at h
  by_cases hn : t.self.isEmpty
  · simp [hn] at h
  · have hlen : t.self.length ≠ 0 := by
      intro h0
      exact hn (List.isEmpty_iff_length_eq_zero.mpr h0)
    have hpos : rs.headD 0 % t.self.length < t.self.length :=
      Nat.mod_lt _ (Nat.pos_of_ne_zero hlen)
    simp only [hn, Bool.not_false, if_true, if_neg hlen, pyPop,
      List.getElem?_eq_getElem hpos] at h
    rw [Prod.mk.injEq, Prod.mk.injEq] at h
    obtain ⟨⟨-, h2⟩, -⟩ := h
    subst h2
    simp only [List.length_eraseIdx, if_pos hpos]
    omega

/-! ### Helper lemmas: list permutations, the shuffle, the sort -/

/-- Removing the element at a valid index and putting it back in front
is a permutation of the original list (`list.pop(i)` loses nothing). -/
theorem getElem_cons_eraseIdx_perm {l : List α} {i : Nat} (h : i < l.length) :
    l[i] :: l.eraseIdx i ~ l := by
  rw [List.eraseIdx_eq_take_drop_succ]
  refine List.Perm.trans List.perm_middle.symm ?_
  rw [show l.take i ++ l[i] :: l.drop (i + 1) = l.take i ++ l.drop i by
        rw [List.getElem_cons_drop _ _ h]]
  rw [List.take_append_drop]

/-- Overwriting a valid position exchanges the old element for the new
one, at the level of multisets. -/
theorem coe_set_add_singleton (b : α) :
    ∀ (l : List α) (i : Nat) (h : i < l.length),
      ((l.set i b : List α) : Multiset α) + {l[i]} =
        (l : Multiset α) + {b}
  | x :: xs, 0, _ => by
      simp only [List.set_cons_zero, List.getElem_cons_zero,
        ← Multiset.cons_coe, ← Multiset.singleton_add]
      abel
  | x :: xs, i + 1, h => by
      have ih := coe_set_add_singleton b xs i (by simpa using h)
      simp only [List.set_cons_succ, List.getElem_cons_succ,
        ← Multiset.cons_coe, ← Multiset.singleton_add]
      rw [add_assoc, add_assoc, ih]

/-- The swap `x[i], x[j] = x[j], x[i]` preserves the multiset of
elements. -/
theorem listSwap_multiset (l : List α) (i j : Nat) :
    ((listSwap l i j : List α) : Multiset α) = (l : Multiset α) := by
  rcases hi : l[i]? with _ | a <;> rcases hj : l[j]? with _ | b <;>
    simp only [listSwap, hi, hj]
  obtain ⟨hi', ha⟩ := List.getElem?_eq_some_iff.mp hi
  obtain ⟨hj', hb⟩ := List.getElem?_eq_some_iff.mp hj
  by_cases hij : i = j
  · subst hij
    rw [List.set_set]
    have h1 := coe_set_add_singleton a l i hi'
    rw [ha] at h1
    exact add_right_cancel h1
  · have hj'' : j < (l.set i b).length := by simpa using hj'
    have h2 := coe_set_add_singleton a (l.set i b) j hj''
    rw [List.getElem_set_ne hij, hb] at h2
    have h1 := coe_set_add_singleton b l i hi'
    rw [ha] at h1
    rw [h1] at h2
    exact add_right_cancel h2

/-- Each pass of the Fisher–Yates loop preserves the multiset of
elements. -/
theorem shuffleFrom_multiset (n : Nat) :
    ∀ (l : List α) (rs : List Nat),
      (((shuffleFrom l rs n).1 : List α) : Multiset α) = (l : Multiset α) := by
  induction n with
  | zero => intro l rs; rfl
  | succ k ih =>
      intro l rs
      rw [shuffleFrom]
      rw [ih]
      exact listSwap_multiset l (k + 1) (rs.headD 0 % (k + 2))

/-- `random.shuffle` returns a permutation of its input. -/
theorem pyShuffle_perm (l : List α) (rs : List Nat) :
    (pyShuffle l rs).1 ~ l := by
  rw [← Multiset.coe_eq_coe]
  exact shuffleFrom_multiset (l.length - 1) l rs

/-- `sorted` returns a permutation of its input. -/
theorem pySorted_perm [LinearOrder α] (l : List α) : pySorted l ~ l :=
  List.perm_insertionSort _ l

/-- `sorted` returns an ascending list. -/
theorem pySorted_sorted [LinearOrder α] (l : List α) :
    List.Sorted (· ≤ ·) (pySorted l) :=
  List.sorted_insertionSort _ l

/-- Lists with the same multiset of elements sort identically. -/
theorem pySorted_perm_eq [LinearOrder α] {l l' : List α} (h : l ~ l') :
    pySorted l = pySorted l' :=
  List.eq_of_perm_of_sorted
    ((pySorted_perm l).trans (h.trans (pySorted_perm l').symm))
    (pySorted_sorted l) (pySorted_sorted l')

/-- Sorting an empty list (and only an empty list) gives an empty
list. -/
theorem pySorted_isEmpty [LinearOrder α] (l : List α) :
    (pySorted l).isEmpty = l.isEmpty := by
  have := (pySorted_perm l).length_eq
  rcases l with _ | ⟨x, xs⟩
  · simp [pySorted]
  · have hlen : (pySorted (x :: xs)).length = xs.length + 1 := by
      simpa using this
    rcases hp : pySorted (x :: xs) with _ | ⟨y, ys⟩
    · rw [hp] at hlen; simp at hlen
    · simp

/-! ### `BingoCage.pick` characterization and the inherited defaults -/

/-- `pick` on an empty `BingoCage` raises `LookupError` (the caught
`IndexError` of `pop` is converted) and leaves the storage untouched. -/
theorem BingoCage.pick_nil :
    (⟨[]⟩ : BingoCage α).pick = (.error .lookupError, ⟨[]⟩) := rfl

/-- `pick` on a non-empty `BingoCage` pops the last element. -/
theorem BingoCage.pick_concat (l : List α) (a : α) :
    (⟨l ++ [a]⟩ : BingoCage α).pick = (.ok a, ⟨l⟩) := by
  simp [BingoCage.pick, pyPopLast, List.getLast?_concat]

/-- `BingoCage.pick` can only fail with `LookupError`, only on an empty
cage, and then changes nothing. -/
theorem bingo_pick_err_inv {st st' : BingoCage α} {e : PyErr}
    (h : st.pick = (.error e, st')) :
    e = .lookupError ∧ st' = st ∧ st._items = [] := by
  rcases st with ⟨l⟩
  rcases List.eq_nil_or_concat l with rfl | ⟨L, b, rfl⟩
  · rw [BingoCage.pick_nil] at h
    simp only [Prod.mk.injEq, Except.error.injEq] at h
    exact ⟨h.1.symm, h.2.symm, rfl⟩
  · rw [List.concat_eq_append, BingoCage.pick_concat] at h
    simp at h

/-- A successful `BingoCage.pick` removes exactly the last element. -/
theorem bingo_pick_ok_inv {st st' : BingoCage α} {a : α}
    (h : st.pick = (.ok a, st')) :
    st'._items ++ [a] = st._items := by
  rcases st with ⟨l⟩
  rcases List.eq_nil_or_concat l with rfl | ⟨L, b, rfl⟩
  · rw [BingoCage.pick_nil] at h
    simp at h
  · rw [List.concat_eq_append, BingoCage.pick_concat] at h
    simp only [Prod.mk.injEq, Except.ok.injEq] at h
    obtain ⟨rfl, rfl⟩ := h
    simp [List.concat_eq_append]

/-- One successful step of the inherited inspect loop. -/
theorem bingoDrainLoop_ok_step {st st' : BingoCage α} {a : α}
    (items : List α) (h : st.pick = (.ok a, st')) :
    bingoDrainLoop st items = bingoDrainLoop st' (items ++ [a]) := by
  rw [bingoDrainLoop]
  split
  · next a' st'' heq =>
      rw [h] at heq
      simp only [Prod.mk.injEq, Except.ok.injEq] at heq
      obtain ⟨rfl, rfl⟩ := heq
      rfl
  · next st'' heq => rw [h] at heq; simp at heq
  · next e st'' hne heq => rw [h] at heq; simp at heq

/-- The inherited inspect loop stops, with the items drained so far,
exactly when `pick` raises `LookupError`. -/
theorem bingoDrainLoop_break {st st' : BingoCage α}
    (items : List α) (h : st.pick = (.error .lookupError, st')) :
    bingoDrainLoop st items = .ok (items, st') := by
  rw [bingoDrainLoop]
  split
  · next a' st'' heq => rw [h] at heq; simp at heq
  · next st'' heq =>
      rw [h] at heq
      simp only [Prod.mk.injEq, Except.error.injEq] at heq
      rw [heq.2]
  · next e st'' hne heq =>
      rw [h] at heq
      simp only [Prod.mk.injEq, Except.error.injEq] at heq
      exact absurd heq.1.symm hne

/-- Draining a `BingoCage` by repeated `pick` returns all stored items
(in reverse storage order) and empties the cage, ending in the caught
`LookupError` — never any other failure. -/
theorem bingoDrainLoop_eq :
    ∀ (l items : List α),
      bingoDrainLoop ⟨l⟩ items = .ok (items ++ l.reverse, ⟨[]⟩) := by
  intro l
  induction l using List.reverseRecOn with
  | nil =>
      intro items
      rw [bingoDrainLoop_break items BingoCage.pick_nil]
      simp
  | append_singleton xs x ih =>
      intro items
      rw [bingoDrainLoop_ok_step items (BingoCage.pick_concat xs x), ih]
      simp

/-- Closed form of the inherited `Tombola.inspect` on a `BingoCage`:
it returns the sorted contents, and the reloaded storage is the shuffle
of the drained (reversed) items. -/
theorem Tombola.inspectBingo_eq [LinearOrder α]
    (st : BingoCage α) (rs : List Nat) :
    Tombola.inspectBingo st rs =
      (.ok (pySorted st._items),
       ⟨(pyShuffle st._items.reverse rs).1⟩,
       (pyShuffle st._items.reverse rs).2) := by
  rcases st with ⟨l⟩
  simp only [Tombola.inspectBingo, bingoDrainLoop_eq, List.nil_append,
    BingoCage.load]
  rw [pySorted_perm_eq (List.reverse_perm l)]

/-- Closed form of the inherited `Tombola.loaded` on a `BingoCage`. -/
theorem Tombola.loadedBingo_eq [LinearOrder α]
    (st : BingoCage α) (rs : List Nat) :
    Tombola.loadedBingo st rs =
      (.ok (!st._items.isEmpty),
       ⟨(pyShuffle st._items.reverse rs).1⟩,
       (pyShuffle st._items.reverse rs).2) := by
  simp only [Tombola.loadedBingo, Tombola.inspectBingo_eq, pySorted_isEmpty]

/-! ### `LotteryBlower.pick` characterization -/

/-- `pick` on an empty `LotteryBlower` raises `LookupError` (the caught
`ValueError` of `randrange` is converted) and changes nothing. -/
theorem lotto_pick_empty {st : LotteryBlower α} (rs : List Nat)
    (h : st._balls = []) :
    st.pick rs = ((.error .lookupError, st), rs) := by
  simp [LotteryBlower.pick, randrange, h]

/-- `pick` on a non-empty `LotteryBlower` removes and returns the ball
at the drawn index. -/
theorem lotto_pick_of_ne {st : LotteryBlower α} (rs : List Nat)
    (h : st._balls ≠ []) :
    ∃ (hp : rs.headD 0 % st._balls.length < st._balls.length),
      st.pick rs =
        ((.ok (st._balls.get ⟨rs.headD 0 % st._balls.length, hp⟩),
          ⟨st._balls.eraseIdx (rs.headD 0 % st._balls.length)⟩), rs.tail) := by
  have hlen : st._balls.length ≠ 0 := fun h0 => h (List.length_eq_zero.mp h0)
  have hp : rs.headD 0 % st._balls.length < st._balls.length :=
    Nat.mod_lt _ (Nat.pos_of_ne_zero hlen)
  refine ⟨hp, ?_⟩
  simp only [LotteryBlower.pick, randrange, if_neg hlen, pyPop,
    List.getElem?_eq_getElem hp, List.get_eq_getElem]

/-- A successful `LotteryBlower.pick` removes exactly the returned
ball, and consumes one random draw. -/
theorem lotto_pick_ok_inv {st st' : LotteryBlower α}
    {rs rs' : List Nat} {a : α} (h : st.pick rs = ((.ok a, st'), rs')) :
    a :: st'._balls ~ st._balls ∧ rs' = rs.tail := by
  by_cases hb : st._balls = []
  · rw [lotto_pick_empty rs hb] at h
    simp at h
  · obtain ⟨hp, heq⟩ := lotto_pick_of_ne rs hb
    rw [heq] at h
    simp only [Prod.mk.injEq, Except.ok.injEq] at h
    obtain ⟨⟨rfl, rfl⟩, rfl⟩ := h
    refine ⟨?_, rfl⟩
    simpa [List.get_eq_getElem] using getElem_cons_eraseIdx_perm hp

/-- `LotteryBlower.pick` can only fail with `LookupError`, only on an
empty blower, and then changes nothing. -/
theorem lotto_pick_err_inv {st st' : LotteryBlower α}
    {rs rs' : List Nat} {e : PyErr}
    (h : st.pick rs = ((.error e, st'), rs')) :
    e = .lookupError ∧ st' = st ∧ rs' = rs ∧ st._balls = [] := by
  by_cases hb : st._balls = []
  · rw [lotto_pick_empty rs hb] at h
    simp only [Prod.mk.injEq, Except.error.injEq] at h
    exact ⟨h.1.1.symm, h.1.2.symm, h.2.symm, hb⟩
  · obtain ⟨hp, heq⟩ := lotto_pick_of_ne rs hb
    rw [heq] at h
    simp at h

/-! ### `TomboList.pick` characterization -/

/-- `pick` on an empty `TomboList` takes the `else` branch and raises
`LookupError`, changing nothing. -/
theorem tombo_pick_empty {t : TomboList α} (rs : List Nat)
    (h : t.self = []) :
    t.pick rs = ((.error .lookupError, t), rs) := by
  simp [TomboList.pick, h]

/-- `pick` on a non-empty `TomboList` removes and returns the element
at the drawn index. -/
theorem tombo_pick_of_ne {t : TomboList α} (rs : List Nat)
    (h : t.self ≠ []) :
    ∃ (hp : rs.headD 0 % t.self.length < t.self.length),
      t.pick rs =
        ((.ok (t.self.get ⟨rs.headD 0 % t.self.length, hp⟩),
          ⟨t.self.eraseIdx (rs.headD 0 % t.self.length)⟩), rs.tail) := by
  have hlen : t.self.length ≠ 0 := fun h0 => h (List.length_eq_zero.mp h0)
  have hp : rs.headD 0 % t.self.length < t.self.length :=
    Nat.mod_lt _ (Nat.pos_of_ne_zero hlen)
  have hie : t.self.isEmpty = false := List.isEmpty_eq_false.mpr h
  refine ⟨hp, ?_⟩
  simp only [TomboList.pick, hie, Bool.not_false, if_true, randrange,
    if_neg hlen, pyPop, List.getElem?_eq_getElem hp, List.get_eq_getElem]

/-- A successful `TomboList.pick` removes exactly the returned item,
and consumes one random draw. -/
theorem tombo_pick_ok_inv {t t' : TomboList α}
    {rs rs' : List Nat} {a : α} (h : t.pick rs = ((.ok a, t'), rs')) :
    a :: t'.self ~ t.self ∧ rs' = rs.tail := by
  by_cases hb : t.self = []
  · rw [tombo_pick_empty rs hb] at h
    simp at h
  · obtain ⟨hp, heq⟩ := tombo_pick_of_ne rs hb
    rw [heq] at h
    simp only [Prod.mk.injEq, Except.ok.injEq] at h
    obtain ⟨⟨rfl, rfl⟩, rfl⟩ := h
    refine ⟨?_, rfl⟩
    simpa [List.get_eq_getElem] using getElem_cons_eraseIdx_perm hp

/-- `TomboList.pick` can only fail with `LookupError`, only on an empty
list, and then changes nothing. -/
theorem tombo_pick_err_inv {t t' : TomboList α}
    {rs rs' : List Nat} {e : PyErr}
    (h : t.pick rs = ((.error e, t'), rs')) :
    e = .lookupError ∧ t' = t ∧ rs' = rs ∧ t.self = [] := by
  by_cases hb : t.self = []
  · rw [tombo_pick_empty rs hb] at h
    simp only [Prod.mk.injEq, Except.error.injEq] at h
    exact ⟨h.1.1.symm, h.1.2.symm, h.2.symm, hb⟩
  · obtain ⟨hp, heq⟩ := tombo_pick_of_ne rs hb
    rw [heq] at h
    simp at h

/-! ### The harness drains -/

/-- One successful step of the `LotteryBlower` drain. -/
theorem lottoDrainLoop_ok_step {st st' : LotteryBlower α}
    {rs rs' : List Nat} {a : α} (items : List α)
    (h : st.pick rs = ((.ok a, st'), rs')) :
    lottoDrainLoop st rs items = lottoDrainLoop st' rs' (items ++ [a]) := by
  rw [lottoDrainLoop]
  split
  · next a' st'' rs'' heq =>
      rw [h] at heq
      simp only [Prod.mk.injEq, Except.ok.injEq] at heq
      obtain ⟨⟨rfl, rfl⟩, rfl⟩ := heq
      rfl
  · next st'' rs'' heq => rw [h] at heq; simp at heq
  · next e st'' rs'' hne heq => rw [h] at heq; simp at heq

/-- The `LotteryBlower` drain stops exactly at `LookupError`. -/
theorem lottoDrainLoop_break {st st' : LotteryBlower α}
    {rs rs' : List Nat} (items : List α)
    (h : st.pick rs = ((.error .lookupError, st'), rs')) :
    lottoDrainLoop st rs items = .ok (items, st', rs') := by
  rw [lottoDrainLoop]
  split
  · next a' st'' rs'' heq => rw [h] at heq; simp at heq
  · next st'' rs'' heq =>
      rw [h] at heq
      simp only [Prod.mk.injEq, Except.error.injEq] at heq
      rw [heq.1.2, heq.2]
  · next e st'' rs'' hne heq =>
      rw [h] at heq
      simp only [Prod.mk.injEq, Except.error.injEq] at heq
      exact absurd heq.1.1.symm hne

/-- Draining a `LotteryBlower` succeeds (ends at the `LookupError` of
the empty blower, never any other failure), empties the storage and
returns a permutation of what was stored. -/
theorem lottoDrainLoop_spec (st : LotteryBlower α) (rs : List Nat)
    (items : List α) :
    ∃ out rs', lottoDrainLoop st rs items = .ok (out, ⟨[]⟩, rs') ∧
      out ~ items ++ st._balls := by
  induction st, rs, items using lottoDrainLoop.induct with
  | case1 st rs items a st' rs' h ih =>
      obtain ⟨out, rs'', hloop, hperm⟩ := ih
      obtain ⟨hcons, -⟩ := lotto_pick_ok_inv h
      refine ⟨out, rs'', ?_, ?_⟩
      · rw [lottoDrainLoop_ok_step items h, hloop]
      · refine hperm.trans ?_
        rw [List.append_assoc, List.singleton_append]
        exact List.Perm.append_left items hcons
  | case2 st rs items st' rs' h =>
      obtain ⟨-, h2, h3, hnil⟩ := lotto_pick_err_inv h
      have hst : st = ⟨[]⟩ := by
        rcases st with ⟨balls⟩
        simp only [LotteryBlower.mk.injEq]
        exact hnil
      refine ⟨items, rs', ?_, ?_⟩
      · rw [lottoDrainLoop_break items h, h2, hst]
      · rw [hnil, List.append_nil]
  | case3 st rs items e snd snd1 hne h =>
      obtain ⟨he, -, -, -⟩ := lotto_pick_err_inv h
      exact absurd he hne

/-- One successful step of the `TomboList` drain. -/
theorem tomboDrainLoop_ok_step {t t' : TomboList α}
    {rs rs' : List Nat} {a : α} (items : List α)
    (h : t.pick rs = ((.ok a, t'), rs')) :
    tomboDrainLoop t rs items = tomboDrainLoop t' rs' (items ++ [a]) := by
  rw [tomboDrainLoop]
  split
  · next a' t'' rs'' heq =>
      rw [h] at heq
      simp only [Prod.mk.injEq, Except.ok.injEq] at heq
      obtain ⟨⟨rfl, rfl⟩, rfl⟩ := heq
      rfl
  · next t'' rs'' heq => rw [h] at heq; simp at heq
  · next e t'' rs'' hne heq => rw [h] at heq; simp at heq

/-- The `TomboList` drain stops exactly at `LookupError`. -/
theorem tomboDrainLoop_break {t t' : TomboList α}
    {rs rs' : List Nat} (items : List α)
    (h : t.pick rs = ((.error .lookupError, t'), rs')) :
    tomboDrainLoop t rs items = .ok (items, t', rs') := by
  rw [tomboDrainLoop]
  split
  · next a' t'' rs'' heq => rw [h] at heq; simp at heq
  · next t'' rs'' heq =>
      rw [h] at heq
      simp only [Prod.mk.injEq, Except.error.injEq] at heq
      rw [heq.1.2, heq.2]
  · next e t'' rs'' hne heq =>
      rw [h] at heq
      simp only [Prod.mk.injEq, Except.error.injEq] at heq
      exact absurd heq.1.1.symm hne

/-- Draining a `TomboList` succeeds (ends at the `LookupError` of the
empty list, never any other failure), empties the storage and returns
a permutation of what was stored. -/
theorem tomboDrainLoop_spec (t : TomboList α) (rs : List Nat)
    (items : List α) :
    ∃ out rs', tomboDrainLoop t rs items = .ok (out, ⟨[]⟩, rs') ∧
      out ~ items ++ t.self := by
  induction t, rs, items using tomboDrainLoop.induct with
  | case1 t rs items a t' rs' h ih =>
      obtain ⟨out, rs'', hloop, hperm⟩ := ih
      obtain ⟨hcons, -⟩ := tombo_pick_ok_inv h
      refine ⟨out, rs'', ?_, ?_⟩
      · rw [tomboDrainLoop_ok_step items h, hloop]
      · refine hperm.trans ?_
        rw [List.append_assoc, List.singleton_append]
        exact List.Perm.append_left items hcons
  | case2 t rs items t' rs' h =>
      obtain ⟨-, h2, h3, hnil⟩ := tombo_pick_err_inv h
      have ht : t = ⟨[]⟩ := by
        rcases t with ⟨l⟩
        simp only [TomboList.mk.injEq]
        exact hnil
      refine ⟨items, rs', ?_, ?_⟩
      · rw [tomboDrainLoop_break items h, h2, ht]
      · rw [hnil, List.append_nil]
  | case3 t rs items e snd snd1 hne h =>
      obtain ⟨he, -, -, -⟩ := tombo_pick_err_inv h
      exact absurd he hne

/-- `BingoCage.pick` fails exactly on empty storage (and then with
`LookupError`). -/
theorem bingo_pick_fst_err_iff (st : BingoCage α) :
    (st.pick).1 = .error .lookupError ↔ st._items = [] := by
  rcases st with ⟨l⟩
  rcases List.eq_nil_or_concat l with rfl | ⟨L, b, rfl⟩
  · simp [BingoCage.pick_nil]
  · rw [List.concat_eq_append, BingoCage.pick_concat]
    simp

/-- `LotteryBlower.pick` fails exactly on empty storage (and then with
`LookupError`). -/
theorem lotto_pick_fst_err_iff (st : LotteryBlower α) (rs : List Nat) :
    ((st.pick rs).1).1 = .error .lookupError ↔ st._balls = [] := by
  by_cases hb : st._balls = []
  · simp [lotto_pick_empty rs hb, hb]
  · obtain ⟨hp, heq⟩ := lotto_pick_of_ne rs hb
    rw [heq]
    simp [hb]

/-- `TomboList.pick` fails exactly on empty storage (and then with
`LookupError`). -/
theorem tombo_pick_fst_err_iff (t : TomboList α) (rs : List Nat) :
    ((t.pick rs).1).1 = .error .lookupError ↔ t.self = [] := by
  by_cases hb : t.self = []
  · simp [tombo_pick_empty rs hb, hb]
  · obtain ⟨hp, heq⟩ := tombo_pick_of_ne rs hb
    rw [heq]
    simp [hb]

/-! ### The claims -/

/-- C1: For every implementation (`BingoCage`, `LotteryBlower`,
`TomboList`) and every finite multiset of items loaded into a fresh
instance, repeatedly calling `pick` until it fails with the
`LookupError` (`EmptyError`) returns exactly the loaded elements as a
multiset — every loaded item exactly once, nothing created or lost, in
some order — and empties the storage. -/
theorem C1_drain_returns_loaded_multiset (α : Type) :
    (∀ (S : List α) (rs : List Nat),
      ∃ out, bingoDrainLoop (BingoCage.init S rs).1 [] = .ok (out, ⟨[]⟩) ∧
        out ~ S) ∧
    (∀ (S : List α) (rs : List Nat),
      ∃ out rs', lottoDrainLoop (LotteryBlower.init S) rs [] =
          .ok (out, ⟨[]⟩, rs') ∧ out ~ S) ∧
    (∀ (S : List α) (rs : List Nat),
      ∃ out rs', tomboDrainLoop (TomboList.init S) rs [] =
          .ok (out, ⟨[]⟩, rs') ∧ out ~ S) := by
  refine ⟨fun S rs => ?_, fun S rs => ?_, fun S rs => ?_⟩
  · have hinit : (BingoCage.init S rs).1 = ⟨(pyShuffle S rs).1⟩ := by
      simp [BingoCage.init, BingoCage.load]
    refine ⟨(pyShuffle S rs).1.reverse, ?_, ?_⟩
    · rw [hinit, bingoDrainLoop_eq, List.nil_append]
    · exact (List.reverse_perm _).trans (pyShuffle_perm S rs)
  · obtain ⟨out, rs', hloop, hperm⟩ :=
      lottoDrainLoop_spec (LotteryBlower.init S) rs []
    exact ⟨out, rs', hloop, by simpa [LotteryBlower.init] using hperm⟩
  · obtain ⟨out, rs', hloop, hperm⟩ :=
      tomboDrainLoop_spec (TomboList.init S) rs []
    exact ⟨out, rs', hloop, by simpa [TomboList.init] using hperm⟩

/-- C2: For every implementation, `pick` either succeeds and removes
exactly one item, or fails with `LookupError` (`EmptyError`) — never
any other failure kind — and it fails exactly on empty storage,
leaving the storage unchanged (no partial removal).  In particular a
freshly constructed, unloaded instance fails with `LookupError`. -/
theorem C2_pick_empty_error_no_partial_removal (α : Type) :
    (∀ st : BingoCage α,
      (st._items = [] ∧ st.pick = (.error .lookupError, st)) ∨
      (∃ a st', st.pick = (.ok a, st') ∧ st'._items ++ [a] = st._items)) ∧
    (∀ (st : LotteryBlower α) (rs : List Nat),
      (st._balls = [] ∧ st.pick rs = ((.error .lookupError, st), rs)) ∨
      (∃ a st', st.pick rs = ((.ok a, st'), rs.tail) ∧
        a :: st'._balls ~ st._balls)) ∧
    (∀ (t : TomboList α) (rs : List Nat),
      (t.self = [] ∧ t.pick rs = ((.error .lookupError, t), rs)) ∨
      (∃ a t', t.pick rs = ((.ok a, t'), rs.tail) ∧
        a :: t'.self ~ t.self)) ∧
    (∀ rs : List Nat,
      (BingoCage.init ([] : List α) rs).1.pick =
        (.error .lookupError, ⟨[]⟩) ∧
      (LotteryBlower.init ([] : List α)).pick rs =
        ((.error .lookupError, ⟨[]⟩), rs) ∧
      (TomboList.init ([] : List α)).pick rs =
        ((.error .lookupError, ⟨[]⟩), rs)) := by
  refine ⟨fun st => ?_, fun st rs => ?_, fun t rs => ?_, fun rs => ?_⟩
  · rcases st with ⟨l⟩
    rcases List.eq_nil_or_concat l with rfl | ⟨L, b, rfl⟩
    · exact .inl ⟨rfl, BingoCage.pick_nil⟩
    · refine .inr ⟨b, ⟨L⟩, ?_, ?_⟩
      · rw [List.concat_eq_append, BingoCage.pick_concat]
      · simp [List.concat_eq_append]
  · by_cases hb : st._balls = []
    · exact .inl ⟨hb, lotto_pick_empty rs hb⟩
    · obtain ⟨hp, heq⟩ := lotto_pick_of_ne rs hb
      refine .inr ⟨_, _, heq, ?_⟩
      simpa [List.get_eq_getElem] using getElem_cons_eraseIdx_perm hp
  · by_cases hb : t.self = []
    · exact .inl ⟨hb, tombo_pick_empty rs hb⟩
    · obtain ⟨hp, heq⟩ := tombo_pick_of_ne rs hb
      refine .inr ⟨_, _, heq, ?_⟩
      simpa [List.get_eq_getElem] using getElem_cons_eraseIdx_perm hp
  · exact ⟨rfl, rfl, rfl⟩

/-- C3 (code bug): the notebook's `TomboList` class body binds only
`pick`, `loaded` and `inspect` — the line `load = list.extend` sits
inside `pick`'s body after an `if`/`else` in which both branches
`return` or `raise`, so it is dead code and no `load` attribute exists
(and a registered virtual subclass inherits nothing); the intended
class-level `load = list.extend` would have appended all given items
to the underlying list, as the spec describes. -/
theorem C3_tombolist_load_not_defined (α : Type) :
    "load" ∉ TomboList.classAttributes ∧
    "pick" ∈ TomboList.classAttributes ∧
    "loaded" ∈ TomboList.classAttributes ∧
    "inspect" ∈ TomboList.classAttributes ∧
    ∀ (t : TomboList α) (items : List α),
      (TomboList.intendedLoad t items).self = t.self ++ items := by
  exact ⟨by decide, by decide, by decide, by decide, fun t items => rfl⟩

/-- C4: For every implementation, `inspect` returns exactly the sorted
form of the current contents as a fresh list; it is idempotent (a
second `inspect` with no intervening `load`/`pick` returns the same
output) and non-destructive (the contents — the multiset of stored
items — are unchanged by the call). -/
theorem C4_inspect_sorted_idempotent_nondestructive
    (α : Type) [LinearOrder α] :
    (∀ (st : BingoCage α) (rs : List Nat),
      (Tombola.inspectBingo st rs).1 = .ok (pySorted st._items) ∧
      pySorted st._items ~ st._items ∧
      List.Sorted (· ≤ ·) (pySorted st._items) ∧
      (((Tombola.inspectBingo st rs).2.1)._items : Multiset α) =
        (st._items : Multiset α) ∧
      (∀ rs₂,
        (Tombola.inspectBingo (Tombola.inspectBingo st rs).2.1 rs₂).1 =
          (Tombola.inspectBingo st rs).1)) ∧
    (∀ st : LotteryBlower α,
      st.inspect = pySorted st._balls ∧ st.inspect ~ st._balls ∧
      List.Sorted (· ≤ ·) st.inspect) ∧
    (∀ t : TomboList α,
      t.inspect = pySorted t.self ∧ t.inspect ~ t.self ∧
      List.Sorted (· ≤ ·) t.inspect) := by
  refine ⟨fun st rs => ?_, fun st => ?_, fun t => ?_⟩
  · have hperm : (pyShuffle st._items.reverse rs).1 ~ st._items :=
      (pyShuffle_perm _ _).trans (List.reverse_perm _)
    refine ⟨?_, pySorted_perm _, pySorted_sorted _, ?_, fun rs₂ => ?_⟩
    · rw [Tombola.inspectBingo_eq]
    · rw [Tombola.inspectBingo_eq]
      exact Multiset.coe_eq_coe.mpr hperm
    · rw [Tombola.inspectBingo_eq st rs]
      rw [Tombola.inspectBingo_eq]
      rw [pySorted_perm_eq hperm]
  · exact ⟨rfl, pySorted_perm _, pySorted_sorted _⟩
  · exact ⟨rfl, pySorted_perm _, pySorted_sorted _⟩

/-- C5: For every implementation and every instance state, `loaded`
returns `false` exactly when an immediately following `pick` on that
state fails with `LookupError` (`EmptyError`) — equivalently, `loaded`
is `true` iff at least one item remains. -/
theorem C5_loaded_iff_pick_would_succeed (α : Type) [LinearOrder α] :
    (∀ (st : BingoCage α) (rs : List Nat),
      ∃ st' rs',
        Tombola.loadedBingo st rs = (.ok (!st._items.isEmpty), st', rs') ∧
        ((!st._items.isEmpty) = false ↔
          (st'.pick).1 = .error .lookupError)) ∧
    (∀ (st : LotteryBlower α) (rs : List Nat),
      st.loaded = false ↔ ((st.pick rs).1).1 = .error .lookupError) ∧
    (∀ (t : TomboList α) (rs : List Nat),
      t.loaded = false ↔ ((t.pick rs).1).1 = .error .lookupError) := by
  refine ⟨fun st rs => ?_, fun st rs => ?_, fun t rs => ?_⟩
  · have hperm : (pyShuffle st._items.reverse rs).1 ~ st._items :=
      (pyShuffle_perm _ _).trans (List.reverse_perm _)
    refine ⟨⟨(pyShuffle st._items.reverse rs).1⟩,
      (pyShuffle st._items.reverse rs).2, Tombola.loadedBingo_eq st rs, ?_⟩
    rw [bingo_pick_fst_err_iff]
    simp only [Bool.not_eq_false', List.isEmpty_iff]
    constructor
    · intro h
      exact List.length_eq_zero.mp (hperm.length_eq.trans (by simp [h]))
    · intro h
      refine List.length_eq_zero.mp ?_
      rw [← hperm.length_eq, h]
      rfl
  · rw [lotto_pick_fst_err_iff]
    simp [LotteryBlower.loaded, List.isEmpty_iff]
  · rw [tombo_pick_fst_err_iff]
    simp [TomboList.loaded, List.isEmpty_iff]

/-- C6: `BingoCage.load` appends the new items to the stored sequence
and then re-shuffles the entire sequence (modelled by the Fisher–Yates
pass over the whole list, driven by the randomness source), producing
a permutation of old and new items together; `BingoCage.pick` removes
and returns the last element of the stored sequence, and fails with
`LookupError` (`EmptyError`) if the sequence is empty. -/
theorem C6_bingo_load_appends_shuffles_pick_pops_last (α : Type) :
    (∀ (st : BingoCage α) (new : List α) (rs : List Nat),
      (st.load new rs).1._items = (pyShuffle (st._items ++ new) rs).1 ∧
      (pyShuffle (st._items ++ new) rs).1 ~ st._items ++ new) ∧
    (∀ (l : List α) (a : α),
      (⟨l ++ [a]⟩ : BingoCage α).pick = (.ok a, ⟨l⟩)) ∧
    (⟨[]⟩ : BingoCage α).pick = (.error .lookupError, ⟨[]⟩) := by
  exact ⟨fun st new rs => ⟨rfl, pyShuffle_perm _ rs⟩,
    BingoCage.pick_concat, BingoCage.pick_nil⟩

/-- C7: `inspect` on empty storage returns an empty sorted sequence
without failing: the shared default's internal pick loop observes the
`LookupError` of the empty cage and stops there instead of propagating
it (so the default `inspect` never fails at all — any error other than
`LookupError` would propagate, but `pick` raises none), and the
overriding implementations return an empty tuple directly. -/
theorem C7_inspect_empty_returns_empty (α : Type) [LinearOrder α] :
    (∀ rs : List Nat,
      Tombola.inspectBingo (⟨[]⟩ : BingoCage α) rs = (.ok [], ⟨[]⟩, rs)) ∧
    (∀ (st : BingoCage α) (rs : List Nat),
      (Tombola.inspectBingo st rs).1 = .ok (pySorted st._items)) ∧
    LotteryBlower.inspect (⟨[]⟩ : LotteryBlower α) = [] ∧
    TomboList.inspect (⟨[]⟩ : TomboList α) = [] := by
  refine ⟨fun rs => ?_, fun st rs => ?_, rfl, rfl⟩
  · rw [Tombola.inspectBingo_eq]
    rfl
  · rw [Tombola.inspectBingo_eq]

/-- C8: `load` accepts zero or more items, and loading an empty item
set is a no-op with respect to `inspect`: the output of a subsequent
`inspect` is unchanged (for `LotteryBlower` the state itself is
unchanged; for `BingoCage` the storage is re-shuffled but holds the
same multiset, so `inspect` is unchanged; for the registered
`TomboList` the intended `load = list.extend` with zero items is the
identity). -/
theorem C8_load_nothing_is_noop (α : Type) [LinearOrder α] :
    (∀ (st : BingoCage α) (rs rs₂ rs₃ : List Nat),
      ((st.load [] rs).1._items : Multiset α) = (st._items : Multiset α) ∧
      (Tombola.inspectBingo (st.load [] rs).1 rs₂).1 =
        (Tombola.inspectBingo st rs₃).1) ∧
    (∀ st : LotteryBlower α,
      st.load [] = st ∧ (st.load []).inspect = st.inspect) ∧
    (∀ t : TomboList α,
      TomboList.intendedLoad t [] = t ∧
      (TomboList.intendedLoad t []).inspect = t.inspect) := by
  have hlot : ∀ st : LotteryBlower α, st.load [] = st := by
    intro st
    rcases st with ⟨balls⟩
    simp [LotteryBlower.load]
  have htom : ∀ t : TomboList α, TomboList.intendedLoad t [] = t := by
    intro t
    rcases t with ⟨l⟩
    simp [TomboList.intendedLoad]
  refine ⟨fun st rs rs₂ rs₃ => ?_, fun st => ⟨hlot st, by rw [hlot st]⟩,
    fun t => ⟨htom t, by rw [htom t]⟩⟩
  have hperm : (st.load [] rs).1._items ~ st._items := by
    have : (st.load [] rs).1._items = (pyShuffle (st._items ++ []) rs).1 := rfl
    rw [this, List.append_nil]
    exact pyShuffle_perm _ rs
  refine ⟨Multiset.coe_eq_coe.mpr hperm, ?_⟩
  rw [Tombola.inspectBingo_eq, Tombola.inspectBingo_eq,
    pySorted_perm_eq hperm]

/-- C9 (implicit behavior): invoking a `BingoCage` as a callable
(`__call__`) runs `self.pick()` but discards the result and returns
`None` — on a non-empty cage one item is removed from storage and lost
to the caller; on an empty cage the `LookupError` propagates. -/
theorem C9_call_discards_picked_item (α : Type) :
    ∀ st : BingoCage α,
      (st._items = [] ∧ st.call = (.error .lookupError, st)) ∨
      (∃ l a, st._items = l ++ [a] ∧ st.call = (.ok (), ⟨l⟩)) := by
  intro st
  rcases st with ⟨l⟩
  rcases List.eq_nil_or_concat l with rfl | ⟨L, b, rfl⟩
  · exact .inl ⟨rfl, rfl⟩
  · refine .inr ⟨L, b, by simp [List.concat_eq_append], ?_⟩
    rw [List.concat_eq_append]
    simp only [BingoCage.call, BingoCage.pick_concat]

/-- C10 (implicit behavior): the inherited `loaded` and `inspect`
defaults mutate a `BingoCage`'s storage by draining and reloading it;
the reload re-shuffles, so the multiset of stored items is always
preserved but the internal arrangement may differ afterwards — shown
on `BingoCage` storage `[1, 2]` with a randomness stream that leaves
the drained order in place, ending with storage `[2, 1]`. -/
theorem C10_inherited_reads_preserve_multiset_only
    (α : Type) [LinearOrder α] :
    (∀ (st : BingoCage α) (rs : List Nat),
      (((Tombola.inspectBingo st rs).2.1)._items : Multiset α) =
        (st._items : Multiset α) ∧
      (((Tombola.loadedBingo st rs).2.1)._items : Multiset α) =
        (st._items : Multiset α)) ∧
    (∃ st' rs',
      Tombola.inspectBingo (⟨[1, 2]⟩ : BingoCage Nat) [1] =
        (.ok [1, 2], st', rs') ∧
      st'._items = [2, 1] ∧
      st'._items ≠ (⟨[1, 2]⟩ : BingoCage Nat)._items) := by
  constructor
  · intro st rs
    have hperm : (pyShuffle st._items.reverse rs).1 ~ st._items :=
      (pyShuffle_perm _ _).trans (List.reverse_perm _)
    constructor
    · rw [Tombola.inspectBingo_eq]
      exact Multiset.coe_eq_coe.mpr hperm
    · rw [Tombola.loadedBingo_eq]
      exact Multiset.coe_eq_coe.mpr hperm
  · refine ⟨⟨(pyShuffle [2, 1] [1]).1⟩, (pyShuffle [2, 1] [1]).2, ?_, ?_, ?_⟩
    · rw [Tombola.inspectBingo_eq]
      rfl
    · rfl
    · decide
